import Mathlib

/-!
Shallow embedding of the two C programs in `pycheribuild/files/`:

* `fixlinks.c` — the Link Rewriter: scans the current working directory,
  rewrites symlinks with absolute targets to `../..` ++ target, counts
  `links` and `fixed`, and terminates with one of three outcomes
  (success / usage error / OS error).
* `cheridis.c` — the disassembly front end: tokenizes hex instruction
  words from `argv` and streams `"0x%.2s "` tokens to a pipe.

Machine behaviour that the C runtime leaves abstract (directory
enumeration, per-call filesystem failures) is made explicit: each
directory entry records what object it is and whether each of the three
syscalls used on it (`readlink`, `unlink`, `symlink`) fails.
-/

namespace Fixlinks

/-- What a directory entry actually is on disk: a symbolic link storing
the raw target text, or anything else (regular file, subdirectory, ...),
for which `readlink` fails with `EINVAL`. -/
inductive FsObj where
  | symlink (target : String)
  | other
deriving DecidableEq, Repr

/-- One directory entry as the scan sees it: its name, the object behind
it, and whether each syscall the scan may issue on it fails for a reason
other than "not a symlink" (`readlink` with `errno ≠ EINVAL`, `unlink`,
`symlink`). -/
structure Entry where
  name : String
  obj : FsObj
  readlinkOtherErr : Bool
  unlinkErr : Bool
  symlinkErr : Bool
deriving DecidableEq, Repr

/-- The value `sizeof(target) - 1` in `fixlinks.c`: `readlink` writes at most this
many bytes into the 1024-byte stack buffer. -/
def bufCap : Nat := 1023

/-- The target text the scan actually obtains from `readlink`: the
stored target truncated to the buffer capacity (`readlink` silently
truncates longer targets). -/
def readTarget (t : String) : String := String.mk (t.data.take bufCap)

/-- The test `target[0] == '/'` — the absolute-path classification on the buffer
contents. (A POSIX symlink never has an empty target, so the first
buffer byte is always a byte of the target.) -/
def isAbs (t : String) : Bool := t.data.head? == some '/'

/-- What `asprintf(&newName, "../..%s", target)` builds — the replacement target. -/
def rewriteTarget (t : String) : String := "../.." ++ t

/-- The fatal error cases, each carrying the entry name being processed
when the scan died. -/
inductive RunError where
  | readlinkFailed (name : String)
  | unlinkFailed (name : String)
  | symlinkFailed (name : String)
deriving DecidableEq, Repr

/-- Resulting filesystem state of one name: `some obj` if the name still
denotes `obj`, `none` if the entry was unlinked and never replaced. -/
def origPair (e : Entry) : String × Option FsObj := (e.name, some e.obj)

/-- Result of the scan loop: the two counters, the resulting state of
every name in the directory (in enumeration order), and the fatal error
if the loop died via `err(EX_OSERR, ...)`. -/
structure RunResult where
  links : Nat
  fixed : Nat
  dir : List (String × Option FsObj)
  fatal : Option RunError
deriving DecidableEq, Repr

/-- The `while ((file = readdir(dir)))` loop of `fixlinks.c`, processing
the remaining entries given the counters so far and the states of the
names already processed.  Mirrors the source line by line: `readlink`
failure with `errno == EINVAL` skips the entry, any other failure is
fatal; on success `links++`; if the buffer starts with `/` the entry is
unlinked (fatal on failure) and recreated pointing at
`"../.." ++ buffer` (fatal on failure), then `fixed++`. -/
def runScan : List Entry → Nat → Nat → List (String × Option FsObj) → RunResult
  | [], links, fixed, acc => ⟨links, fixed, acc, none⟩
  | e :: rest, links, fixed, acc =>
    if e.readlinkOtherErr then
      ⟨links, fixed, acc ++ (e :: rest).map origPair, some (.readlinkFailed e.name)⟩
    else
      match e.obj with
      | .other => runScan rest links fixed (acc ++ [origPair e])
      | .symlink t =>
        if isAbs (readTarget t) then
          if e.unlinkErr then
            ⟨links + 1, fixed, acc ++ (e :: rest).map origPair,
              some (.unlinkFailed e.name)⟩
          else if e.symlinkErr then
            ⟨links + 1, fixed, acc ++ (e.name, none) :: rest.map origPair,
              some (.symlinkFailed e.name)⟩
          else
            runScan rest (links + 1) (fixed + 1)
              (acc ++ [(e.name, some (.symlink (rewriteTarget (readTarget t))))])
        else
          runScan rest (links + 1) fixed (acc ++ [origPair e])

/-- The message each `err`/`errx` call formats (the libc wrapper appends
the `strerror` text after it). -/
def fatalMsg : RunError → String
  | .readlinkFailed n => "error in readlink(\x27" ++ n ++ "\x27)"
  | .unlinkFailed _ => "Failed to remove old link"
  | .symlinkFailed _ => "Failed to create link"

/-- The string `printf("fixed %d/%d symbolic links\\n", fixed, links)`
writes to standard output.  The format string in the source ends in a
literal backslash followed by the letter n (the source spells it
`\\n`), not in a newline escape, so the output carries those two
characters and no line terminator. -/
def summaryLine (fixed links : Nat) : String :=
  "fixed " ++ toString fixed ++ "/" ++ toString links ++ " symbolic links\x5cn"

/-- How a run of `main` terminates: normal completion with the text
written to stdout (exit 0), `errx(EX_USAGE, ...)`, `err(EX_OSERR, ...)`,
or the undefined behaviour reached by calling `readdir` on the null
handle when `opendir(".")` failed (the source never checks). -/
inductive Outcome where
  | success (stdout : String)
  | usage (msg : String)
  | oserr (msg : String)
  | undef
deriving DecidableEq, Repr

/-- Exit status of each outcome: 0, `EX_USAGE` = 64, `EX_OSERR` = 71;
none for the undefined-behaviour case, which has no defined status. -/
def exitStatus : Outcome → Option Nat
  | .success _ => some 0
  | .usage _ => some 64
  | .oserr _ => some 71
  | .undef => none

/-- Main function of `fixlinks.c`.  `opendirRes` is what `opendir(".")`
produced (`none` = failure, which the source does not check before
handing the handle to `readdir`); `cwd` is the path `getwd` reports for
the working directory.  Returns the termination outcome and the final
state of every directory name. -/
def fixlinksMain (opendirRes : Option (List Entry)) (cwd : String) :
    Outcome × List (String × Option FsObj) :=
  match opendirRes with
  | none => (.undef, [])
  | some entries =>
    let r := runScan entries 0 0 []
    match r.fatal with
    | some er => (.oserr (fatalMsg er), r.dir)
    | none =>
      if r.links == 0 then (.usage ("no symbolic links in " ++ cwd), r.dir)
      else (.success (summaryLine r.fixed r.links), r.dir)

/-- Entries on which the per-entry step dies via `err(EX_OSERR, ...)`. -/
def stepAborts (e : Entry) : Bool :=
  e.readlinkOtherErr ||
    match e.obj with
    | .symlink t => isAbs (readTarget t) && (e.unlinkErr || e.symlinkErr)
    | .other => false

/-- Entries whose `readlink` succeeds, i.e. exactly those on which the
loop executes `links++`. -/
def readsAsLink (e : Entry) : Bool :=
  !e.readlinkOtherErr &&
    match e.obj with
    | .symlink _ => true
    | .other => false

/-- Entries on which the loop executes `fixed++`: symlinks whose buffer
contents start with `/` and whose three syscalls all succeed. -/
def getsFixed (e : Entry) : Bool :=
  !e.readlinkOtherErr && !e.unlinkErr && !e.symlinkErr &&
    match e.obj with
    | .symlink t => isAbs (readTarget t)
    | .other => false

/-- State of a name after its entry was processed without a fatal
error: absolute-target symlinks now point at the rewritten target,
everything else is untouched. -/
def finalPair (e : Entry) : String × Option FsObj :=
  match e.obj with
  | .other => origPair e
  | .symlink t =>
    if isAbs (readTarget t) then
      (e.name, some (.symlink (rewriteTarget (readTarget t))))
    else origPair e

/-- Predicate `chrPre needle hay`: the character list `needle` is a leading
segment of `hay`. -/
def chrPre : List Char → List Char → Bool
  | [], _ => true
  | _ :: _, [] => false
  | a :: as, b :: bs => a == b && chrPre as bs

/-- Predicate `chrSub needle hay`: `needle` occurs contiguously inside `hay`. -/
def chrSub : List Char → List Char → Bool
  | needle, [] => chrPre needle []
  | needle, h :: t => chrPre needle (h :: t) || chrSub needle t

/-- Predicate `strContains hay needle`: `needle` occurs as a substring of `hay`. -/
def strContains (hay needle : String) : Bool := chrSub needle.data hay.data

/-- Clean termination per the three-outcome contract (success, usage
error, OS error), as opposed to the undefined-behaviour path. -/
def cleanOutcome : Outcome → Bool
  | .undef => false
  | _ => true

/-- Reconstructs the directory-entry list a later scan would see from
the filesystem state a previous run left behind: every name resolves to
the object the previous run left there, and no syscall fails. -/
def entryOfFinal : String × Option FsObj → Entry
  | (n, some o) => ⟨n, o, false, false, false⟩
  | (n, none) => ⟨n, .other, false, false, false⟩

end Fixlinks

namespace Cheridis

/-- One `fprintf(dis, "0x%.2s ", &inst[byte])` call: the precision-2
string conversion prints at most two characters starting at offset
`i`. -/
def fmtTok (inst : List Char) (i : Nat) : String :=
  "0x" ++ String.mk ((inst.drop i).take 2) ++ " "

/-- The `for (byte=0; byte<8; byte+=2)` loop of `cheridis.c`. -/
def emitPairs (inst : List Char) : String :=
  fmtTok inst 0 ++ (fmtTok inst 2 ++ (fmtTok inst 4 ++ fmtTok inst 6))

/-- Processing of one `argv` element by `cheridis.c`: a 10-character
argument must start with `0x`, which is stripped; an argument that is
neither 10 nor 8 characters long is skipped (`continue`), contributing
nothing to the stream; otherwise the four byte pairs are emitted. -/
def disTokens (inst : List Char) : String :=
  if inst.length == 10 then
    if !(inst[0]? == some '0') || !(inst[1]? == some 'x') then ""
    else emitPairs (inst.drop 2)
  else if !(inst.length == 8) then ""
  else emitPairs inst

/-- Everything `main` of `cheridis.c` writes into the subprocess pipe
for the argument list `argv[1..]`. -/
def cheridisInput (args : List (List Char)) : String :=
  String.join (args.map disTokens)

end Cheridis

namespace Fixlinks

theorem chrPre_self_append (n b : List Char) : chrPre n (n ++ b) = true := by
  induction n with
  | nil => rfl
  | cons a as ih => simp [chrPre, ih]

theorem chrSub_of_decomp (pre tgt suf : List Char) :
    chrSub tgt (pre ++ (tgt ++ suf)) = true := by
  induction pre with
  | nil =>
    cases h : tgt ++ suf with
    | nil =>
      rcases List.append_eq_nil.1 h with ⟨h1, _⟩
      subst h1
      simp [chrSub, chrPre]
    | cons x xs =>
      simp only [List.nil_append, chrSub]
      rw [← h, chrPre_self_append]
      rfl
  | cons p ps ih =>
    simp [chrSub, ih]

theorem isAbs_readTarget (t : String) : isAbs (readTarget t) = isAbs t := by
  unfold isAbs readTarget bufCap
  cases h : t.data with
  | nil => simp
  | cons a l =>
    rw [show (1023 : Nat) = 1022 + 1 from rfl, List.take_succ_cons]
    simp

theorem runScan_clean_append (pre rest : List Entry) :
    ∀ l f acc, (∀ e ∈ pre, stepAborts e = false) →
    runScan (pre ++ rest) l f acc
      = runScan rest (l + pre.countP readsAsLink) (f + pre.countP getsFixed)
          (acc ++ pre.map finalPair) := by
  induction pre with
  | nil => intro l f acc _; simp
  | cons e ps ih =>
    intro l f acc h
    have he : stepAborts e = false := h e (by simp)
    have hps : ∀ x ∈ ps, stepAborts x = false := fun x hx => h x (by simp [hx])
    rcases e with ⟨n, obj, rerr, uerr, serr⟩
    cases obj with
    | other =>
      have hr : rerr = false := by simpa [stepAborts] using he
      subst hr
      rw [List.cons_append]
      show runScan _ _ _ _ = _
      rw [show runScan (⟨n, .other, false, uerr, serr⟩ :: (ps ++ rest)) l f acc
            = runScan (ps ++ rest) l f (acc ++ [origPair ⟨n, .other, false, uerr, serr⟩])
          from rfl]
      rw [ih l f _ hps]
      simp [List.countP_cons, readsAsLink, getsFixed, finalPair, origPair]
    | symlink t =>
      have he' : rerr = false ∧ (isAbs (readTarget t) = true → uerr = false ∧ serr = false) := by
        simpa [stepAborts] using he
      rcases he' with ⟨hr, habt⟩
      subst hr
      rw [List.cons_append]
      by_cases hab : isAbs (readTarget t) = true
      · rcases habt hab with ⟨hu, hs⟩
        subst hu; subst hs
        rw [show runScan (⟨n, .symlink t, false, false, false⟩ :: (ps ++ rest)) l f acc
              = runScan (ps ++ rest) (l + 1) (f + 1)
                  (acc ++ [(n, some (.symlink (rewriteTarget (readTarget t))))])
            from by simp [runScan, hab]]
        rw [ih (l + 1) (f + 1) _ hps]
        have h1 : l + 1 + ps.countP readsAsLink
            = l + (⟨n, .symlink t, false, false, false⟩ :: ps).countP readsAsLink := by
          simp [List.countP_cons, readsAsLink]; omega
        have h2 : f + 1 + ps.countP getsFixed
            = f + (⟨n, .symlink t, false, false, false⟩ :: ps).countP getsFixed := by
          simp [List.countP_cons, getsFixed, hab]; omega
        rw [h1, h2]
        simp [finalPair, hab]
      · have hab' : isAbs (readTarget t) = false := by
          cases hq : isAbs (readTarget t)
          · rfl
          · exact absurd hq hab
        rw [show runScan (⟨n, .symlink t, false, uerr, serr⟩ :: (ps ++ rest)) l f acc
              = runScan (ps ++ rest) (l + 1) f
                  (acc ++ [origPair ⟨n, .symlink t, false, uerr, serr⟩])
            from by simp [runScan, hab']]
        rw [ih (l + 1) f _ hps]
        have h1 : l + 1 + ps.countP readsAsLink
            = l + (⟨n, .symlink t, false, uerr, serr⟩ :: ps).countP readsAsLink := by
          simp [List.countP_cons, readsAsLink]; omega
        have h2 : ps.countP getsFixed
            = (⟨n, .symlink t, false, uerr, serr⟩ :: ps).countP getsFixed := by
          simp [List.countP_cons, getsFixed, hab']
        rw [h1, ← h2]
        simp [finalPair, origPair, hab']

theorem runScan_clean (entries : List Entry)
    (h : ∀ e ∈ entries, stepAborts e = false) :
    runScan entries 0 0 []
      = ⟨entries.countP readsAsLink, entries.countP getsFixed,
          entries.map finalPair, none⟩ := by
  have hx := runScan_clean_append entries [] 0 0 [] h
  rw [List.append_nil] at hx
  simpa [runScan] using hx

theorem runScan_fatal_none (entries : List Entry) :
    ∀ l f acc, (runScan entries l f acc).fatal = none →
    ∀ e ∈ entries, stepAborts e = false := by
  induction entries with
  | nil => simp
  | cons x xs ih =>
    intro l f acc h e he
    rcases List.mem_cons.1 he with rfl | hmem
    · rcases e with ⟨n, obj, rerr, uerr, serr⟩
      cases rerr
      · cases obj with
        | other => simp [stepAborts]
        | symlink t =>
          by_cases hab : isAbs (readTarget t) = true
          · cases uerr
            · cases serr
              · simp [stepAborts]
              · simp [runScan, hab] at h
            · simp [runScan, hab] at h
          · simp [stepAborts, Bool.eq_false_iff.2 hab]
      · simp [runScan] at h
    · rcases x with ⟨n, obj, rerr, uerr, serr⟩
      cases rerr
      · cases obj with
        | other => exact ih _ _ _ (by simpa [runScan] using h) e hmem
        | symlink t =>
          by_cases hab : isAbs (readTarget t) = true
          · cases uerr
            · cases serr
              · exact ih _ _ _ (by simpa [runScan, hab] using h) e hmem
              · simp [runScan, hab] at h
            · simp [runScan, hab] at h
          · have hab' : isAbs (readTarget t) = false := Bool.eq_false_iff.2 hab
            exact ih _ _ _ (by simpa [runScan, hab'] using h) e hmem
      · simp [runScan] at h

theorem runScan_counts (entries : List Entry) :
    ∀ l f acc, f ≤ l →
      (runScan entries l f acc).fixed ≤ (runScan entries l f acc).links ∧
      (runScan entries l f acc).links ≤ l + entries.length := by
  induction entries with
  | nil => intro l f acc h; simpa [runScan] using h
  | cons x xs ih =>
    intro l f acc h
    rcases x with ⟨n, obj, rerr, uerr, serr⟩
    cases rerr
    · cases obj with
      | other =>
        have := ih l f (acc ++ [origPair ⟨n, .other, false, uerr, serr⟩]) h
        rw [show runScan (⟨n, .other, false, uerr, serr⟩ :: xs) l f acc
              = runScan xs l f (acc ++ [origPair ⟨n, .other, false, uerr, serr⟩])
            from rfl]
        exact ⟨this.1, by have := this.2; simp only [List.length_cons]; omega⟩
      | symlink t =>
        by_cases hab : isAbs (readTarget t) = true
        · cases uerr
          · cases serr
            · have := ih (l + 1) (f + 1)
                (acc ++ [(n, some (.symlink (rewriteTarget (readTarget t))))])
                (by omega)
              rw [show runScan (⟨n, .symlink t, false, false, false⟩ :: xs) l f acc
                    = runScan xs (l + 1) (f + 1)
                        (acc ++ [(n, some (.symlink (rewriteTarget (readTarget t))))])
                  from by simp [runScan, hab]]
              exact ⟨this.1, by have := this.2; simp only [List.length_cons]; omega⟩
            · rw [show runScan (⟨n, .symlink t, false, false, true⟩ :: xs) l f acc
                    = ⟨l + 1, f,
                        acc ++ (n, none) :: xs.map origPair,
                        some (.symlinkFailed n)⟩
                  from by simp [runScan, hab]]
              exact ⟨by simpa using Nat.le_succ_of_le h, by simp⟩
          · rw [show runScan (⟨n, .symlink t, false, true, serr⟩ :: xs) l f acc
                  = ⟨l + 1, f,
                      acc ++ (⟨n, .symlink t, false, true, serr⟩ :: xs).map origPair,
                      some (.unlinkFailed n)⟩
                from by simp [runScan, hab]]
            exact ⟨by simpa using Nat.le_succ_of_le h, by simp⟩
        · have hab' : isAbs (readTarget t) = false := Bool.eq_false_iff.2 hab
          have := ih (l + 1) f
            (acc ++ [origPair ⟨n, .symlink t, false, uerr, serr⟩]) (by omega)
          rw [show runScan (⟨n, .symlink t, false, uerr, serr⟩ :: xs) l f acc
                = runScan xs (l + 1) f
                    (acc ++ [origPair ⟨n, .symlink t, false, uerr, serr⟩])
              from by simp [runScan, hab']]
          exact ⟨this.1, by have := this.2; simp only [List.length_cons]; omega⟩
    · rw [show runScan (⟨n, obj, true, uerr, serr⟩ :: xs) l f acc
            = ⟨l, f,
                acc ++ (⟨n, obj, true, uerr, serr⟩ :: xs).map origPair,
                some (.readlinkFailed n)⟩
          from rfl]
      exact ⟨h, by simp⟩

theorem isAbs_rewriteTarget (x : String) : isAbs (rewriteTarget x) = false := by
  unfold isAbs rewriteTarget
  rw [String.data_append]
  rfl

theorem runScan_abort_step (bad : Entry) (rest : List Entry)
    (l f : Nat) (acc : List (String × Option FsObj))
    (h : stepAborts bad = true) :
    ∃ er tail li, runScan (bad :: rest) l f acc = ⟨li, f, acc ++ tail, some er⟩ := by
  rcases bad with ⟨n, obj, rerr, uerr, serr⟩
  cases rerr
  · cases obj with
    | other => simp [stepAborts] at h
    | symlink t =>
      by_cases hab : isAbs (readTarget t) = true
      · cases uerr
        · cases serr
          · simp [stepAborts, hab] at h
          · exact ⟨.symlinkFailed n, (n, none) :: rest.map origPair, l + 1,
              by simp [runScan, hab]⟩
        · exact ⟨.unlinkFailed n,
            (⟨n, .symlink t, false, true, serr⟩ :: rest).map origPair, l + 1,
            by simp [runScan, hab]⟩
      · simp [stepAborts, Bool.eq_false_iff.2 hab] at h
  · exact ⟨.readlinkFailed n,
      (⟨n, obj, true, uerr, serr⟩ :: rest).map origPair, l,
      by simp [runScan]⟩

end Fixlinks

namespace Fixlinks

/-- Claim C9: `fixlinks.c` never checks whether `opendir(".")`
succeeded.  When it fails, the run reaches the undefined-behaviour path
(`readdir` on the null handle) rather than any of the three clean
outcomes; whenever `opendir` succeeds, the run terminates in one of the
three clean outcomes. -/
theorem c9_opendir_unchecked (cwd : String) :
    (fixlinksMain none cwd).1 = .undef
    ∧ cleanOutcome (fixlinksMain none cwd).1 = false
    ∧ ∀ entries, cleanOutcome (fixlinksMain (some entries) cwd).1 = true := by
  refine ⟨rfl, rfl, fun entries => ?_⟩
  unfold fixlinksMain
  cases h : (runScan entries 0 0 []).fatal with
  | some er => simp [h, cleanOutcome]
  | none =>
    by_cases hl : (runScan entries 0 0 []).links == 0 <;>
      simp [h, hl, cleanOutcome]

/-- Claim C5 (code evidence): on a successful run over a directory
holding one relative symlink the program exits successfully, but the
text produced by the source's `printf` format ends in the two
characters backslash and `n` — the output contains no newline
character at all, so the summary is not followed by a line
terminator. -/
theorem c5_summary_not_newline_terminated :
    (fixlinksMain (some [⟨"b", .symlink "../c", false, false, false⟩]) "/x").1
      = .success (summaryLine 0 1)
    ∧ summaryLine 0 1 = "fixed 0/1 symbolic links" ++ "\x5c" ++ "n"
    ∧ strContains (summaryLine 0 1) "\n" = false := by
  exact ⟨rfl, rfl, by decide⟩

/-- Claim C3 (counterexample): when the `unlink` step fails on the entry
named `xx`, the run aborts with the OS-error message
`Failed to remove old link`, in which the entry name does not occur —
so the failing entry is not surfaced for unlink failures. -/
theorem c3_abort_message_omits_entry_name :
    (fixlinksMain (some [⟨"xx", .symlink "/y", false, true, false⟩]) "/d").1
      = .oserr (fatalMsg (.unlinkFailed "xx"))
    ∧ strContains (fatalMsg (.unlinkFailed "xx")) "xx" = false := by
  exact ⟨rfl, by decide⟩

/-- Claim C1 (counterexample): a symlink whose absolute target is 1024
bytes long is rewritten, but its new target is `../..` concatenated
with only the first 1023 bytes of the original target — the `readlink`
buffer truncates, so the new target is not `../..` ++ the original
target verbatim. -/
theorem c1_truncation_cex :
    (runScan [⟨"lnk", .symlink (String.mk ('/' :: List.replicate 1023 'a')),
        false, false, false⟩] 0 0 []).dir
      = [("lnk", some (.symlink
          (rewriteTarget (readTarget (String.mk ('/' :: List.replicate 1023 'a'))))))]
    ∧ rewriteTarget (readTarget (String.mk ('/' :: List.replicate 1023 'a')))
        ≠ rewriteTarget (String.mk ('/' :: List.replicate 1023 'a')) := by
  constructor
  · rfl
  · intro h
    have e2 : (String.mk ('/' :: List.replicate 1023 'a')).data
        = '/' :: List.replicate 1023 'a' := rfl
    have e1 : (readTarget (String.mk ('/' :: List.replicate 1023 'a'))).data
        = '/' :: List.replicate 1022 'a' := by
      show List.take bufCap ('/' :: List.replicate 1023 'a')
          = '/' :: List.replicate 1022 'a'
      rw [show bufCap = 1022 + 1 from rfl, List.take_succ_cons, List.take_replicate]
      norm_num
    have hd := congrArg String.data h
    unfold rewriteTarget at hd
    rw [String.data_append, String.data_append, e1, e2] at hd
    have h2 := List.append_cancel_left hd
    have hl := congrArg List.length h2
    simp only [List.length_cons, List.length_replicate] at hl
    omega

end Fixlinks

namespace Fixlinks

/-- Claim C1 (amended): on a run that completes without a fatal error,
every symlink entry whose stored target begins with `/` is replaced by a
symlink of the same name whose target is `../..` concatenated with the
first 1023 bytes of the original target (the `readlink` buffer
capacity); whenever the original target is at most 1023 bytes long this
is exactly `../..` ++ the original target, verbatim, with no
normalization or `..`-collapsing. -/
theorem c1_rewrite_construction (entries : List Entry)
    (hok : (runScan entries 0 0 []).fatal = none) :
    (runScan entries 0 0 []).dir = entries.map finalPair
    ∧ ∀ e ∈ entries, ∀ t, e.obj = .symlink t → isAbs t = true →
        finalPair e
          = (e.name, some (.symlink ("../.." ++ String.mk (t.data.take 1023))))
        ∧ (t.length ≤ 1023 →
            finalPair e = (e.name, some (.symlink ("../.." ++ t)))) := by
  have hclean := runScan_fatal_none entries 0 0 [] hok
  constructor
  · rw [runScan_clean entries hclean]
  · intro e _ t hobj habs
    have habs' : isAbs (readTarget t) = true := by
      rw [isAbs_readTarget]; exact habs
    have hfp : finalPair e
        = (e.name, some (.symlink (rewriteTarget (readTarget t)))) := by
      unfold finalPair
      rw [hobj]
      simp [habs']
    constructor
    · rw [hfp]; rfl
    · intro hlen
      rw [hfp]
      have hrt : readTarget t = t := by
        unfold readTarget bufCap
        rw [List.take_of_length_le hlen]
      rw [hrt]
      rfl

/-- Claim C1 witness: a one-entry directory holding `a -> /opt/x` after
one clean run has `a` rewritten. -/
theorem c1_rewrite_construction_witness :
    (runScan [⟨"a", .symlink "/opt/x", false, false, false⟩] 0 0 []).dir
      = [(⟨"a", .symlink "/opt/x", false, false, false⟩ : Entry)].map finalPair :=
  (c1_rewrite_construction [⟨"a", .symlink "/opt/x", false, false, false⟩]
    (by rfl)).1

/-- Claim C2: at every point of the scan (state after processing any
prefix of the entry list) and at termination,
`0 ≤ fixed ≤ links ≤ number of directory entries`; moreover on prefixes
processed without a fatal error, `links` counts exactly the entries
successfully read as symlinks and `fixed` exactly the successfully
rewritten absolute links, while non-symlink entries contribute to
neither counter. -/
theorem c2_counters_invariant (entries : List Entry) (k : Nat) :
    ((runScan (entries.take k) 0 0 []).fixed
        ≤ (runScan (entries.take k) 0 0 []).links
      ∧ (runScan (entries.take k) 0 0 []).links ≤ (entries.take k).length
      ∧ (entries.take k).length ≤ entries.length)
    ∧ ((runScan (entries.take k) 0 0 []).fatal = none →
        (runScan (entries.take k) 0 0 []).links
            = (entries.take k).countP readsAsLink
        ∧ (runScan (entries.take k) 0 0 []).fixed
            = (entries.take k).countP getsFixed)
    ∧ (∀ e : Entry, e.obj = .other → readsAsLink e = false ∧ getsFixed e = false) := by
  refine ⟨⟨?_, ?_, ?_⟩, ?_, ?_⟩
  · exact (runScan_counts (entries.take k) 0 0 [] (le_refl 0)).1
  · simpa using (runScan_counts (entries.take k) 0 0 [] (le_refl 0)).2
  · simp [List.length_take]
  · intro h
    have hclean := runScan_fatal_none (entries.take k) 0 0 [] h
    rw [runScan_clean _ hclean]
    exact ⟨rfl, rfl⟩
  · intro e he
    rcases e with ⟨n, obj, rerr, uerr, serr⟩
    cases he
    simp [readsAsLink, getsFixed]

/-- Claim C4: a run that completes without fatal error but saw zero
symlinks terminates via `errx(EX_USAGE, ...)`: a usage-error status (64)
distinct from the OS-error status (71), with a message containing the
scanned working directory path. -/
theorem c4_zero_links_usage (entries : List Entry) (cwd : String)
    (h1 : (runScan entries 0 0 []).fatal = none)
    (h2 : (runScan entries 0 0 []).links = 0) :
    (fixlinksMain (some entries) cwd).1 = .usage ("no symbolic links in " ++ cwd)
    ∧ exitStatus (fixlinksMain (some entries) cwd).1 = some 64
    ∧ (∀ m, exitStatus (.oserr m) = some 71) ∧ (64 : Nat) ≠ 71
    ∧ strContains ("no symbolic links in " ++ cwd) cwd = true := by
  have hout : (fixlinksMain (some entries) cwd).1
      = .usage ("no symbolic links in " ++ cwd) := by
    simp [fixlinksMain, h1, h2]
  refine ⟨hout, by rw [hout]; rfl, fun m => rfl, by omega, ?_⟩
  show chrSub cwd.data ("no symbolic links in " ++ cwd).data = true
  rw [String.data_append]
  have hx := chrSub_of_decomp ("no symbolic links in ").data cwd.data []
  simpa using hx

/-- Claim C4 witness: a directory holding only a regular file produces
the usage-error outcome. -/
theorem c4_zero_links_usage_witness :
    (fixlinksMain (some [⟨"f", .other, false, false, false⟩]) "/scan/dir").1
      = .usage ("no symbolic links in " ++ "/scan/dir") :=
  (c4_zero_links_usage [⟨"f", .other, false, false, false⟩] "/scan/dir"
    (by rfl) (by rfl)).1

end Fixlinks

namespace Fixlinks

/-- Claim C6: on a run that completes without fatal error, a symlink
entry whose original target does not begin with `/` keeps its target
byte for byte (no unlink/recreate), and it counts toward `links` but
not toward `fixed`. -/
theorem c6_relative_links_untouched (entries : List Entry) (e : Entry) (t : String)
    (hmem : e ∈ entries) (hobj : e.obj = .symlink t) (hrel : isAbs t = false)
    (hok : (runScan entries 0 0 []).fatal = none) :
    finalPair e = (e.name, some (.symlink t))
    ∧ (runScan entries 0 0 []).dir = entries.map finalPair
    ∧ readsAsLink e = true ∧ getsFixed e = false
    ∧ (runScan entries 0 0 []).links = entries.countP readsAsLink
    ∧ (runScan entries 0 0 []).fixed = entries.countP getsFixed := by
  have hclean := runScan_fatal_none entries 0 0 [] hok
  have hstep := hclean e hmem
  have hrel' : isAbs (readTarget t) = false := by
    rw [isAbs_readTarget]; exact hrel
  have hrerr : e.readlinkOtherErr = false := by
    rcases hb : e.readlinkOtherErr
    · rfl
    · rw [show stepAborts e = (e.readlinkOtherErr ||
          match e.obj with
          | .symlink t => isAbs (readTarget t) && (e.unlinkErr || e.symlinkErr)
          | .other => false) from rfl, hb] at hstep
      simp at hstep
  refine ⟨?_, ?_, ?_, ?_, ?_, ?_⟩
  · unfold finalPair
    rw [hobj]
    simp [hrel', origPair, hobj]
  · rw [runScan_clean entries hclean]
  · unfold readsAsLink
    rw [hobj, hrerr]
    rfl
  · unfold getsFixed
    rw [hobj]
    simp [hrel']
  · rw [runScan_clean entries hclean]
  · rw [runScan_clean entries hclean]

/-- Claim C6 witness: `b -> ../c` is untouched by a clean run. -/
theorem c6_relative_links_untouched_witness :
    finalPair ⟨"b", .symlink "../c", false, false, false⟩
      = ("b", some (.symlink "../c")) :=
  (c6_relative_links_untouched [⟨"b", .symlink "../c", false, false, false⟩]
    ⟨"b", .symlink "../c", false, false, false⟩ "../c"
    (by simp) rfl (by rfl) (by rfl)).1

/-- Claim C7: the rewrite pass is idempotent.  If one run completes
without fatal error, a second run over the directory state it left
behind (every name resolving to the object the first run left, with no
syscall failures) fixes nothing — `fixed = 0` — and itself completes
without fatal error, because every previously absolute target now
begins with `..` and no longer classifies as absolute. -/
theorem c7_second_run_fixes_nothing (entries : List Entry)
    (hok : (runScan entries 0 0 []).fatal = none) :
    (runScan ((runScan entries 0 0 []).dir.map entryOfFinal) 0 0 []).fixed = 0
    ∧ (runScan ((runScan entries 0 0 []).dir.map entryOfFinal) 0 0 []).fatal
        = none := by
  have hclean := runScan_fatal_none entries 0 0 [] hok
  rw [runScan_clean entries hclean]
  have hall : ∀ e2 ∈ (entries.map finalPair).map entryOfFinal,
      stepAborts e2 = false ∧ getsFixed e2 = false := by
    intro e2 he2
    simp only [List.mem_map] at he2
    rcases he2 with ⟨p, ⟨e, _, rfl⟩, rfl⟩
    rcases e with ⟨n, obj, rerr, uerr, serr⟩
    cases obj with
    | other =>
      simp [finalPair, origPair, entryOfFinal, stepAborts, getsFixed]
    | symlink t =>
      by_cases hab : isAbs (readTarget t) = true
      · simp only [finalPair, hab, if_true, entryOfFinal]
        constructor
        · simp [stepAborts]
        · simp [getsFixed, isAbs_readTarget, isAbs_rewriteTarget]
      · have hab' : isAbs (readTarget t) = false := Bool.eq_false_iff.2 hab
        simp only [finalPair, hab', if_false, Bool.false_eq_true, origPair,
          entryOfFinal]
        constructor
        · simp [stepAborts, hab']
        · simp [getsFixed, isAbs_readTarget, hab']
  rw [runScan_clean _ (fun x hx => (hall x hx).1)]
  constructor
  · exact List.countP_eq_zero.2 (fun x hx => by simp [(hall x hx).2])
  · rfl

/-- Claim C7 witness: after fixing `a -> /opt/x`, a second run fixes
nothing. -/
theorem c7_second_run_fixes_nothing_witness :
    (runScan ((runScan [⟨"a", .symlink "/opt/x", false, false, false⟩] 0 0 []).dir.map
        entryOfFinal) 0 0 []).fixed = 0 :=
  (c7_second_run_fixes_nothing [⟨"a", .symlink "/opt/x", false, false, false⟩]
    (by rfl)).1

/-- Claim C10: a fatal abort performs no rollback.  If the entries
before the aborting one processed cleanly and the entry `bad` aborts,
the run ends fatally and the final directory state extends the states
of the already-processed prefix unchanged; in particular every
absolute-target symlink of that prefix remains in its rewritten state
`../..` ++ (buffered) target. -/
theorem c10_no_rollback (pre : List Entry) (bad : Entry) (rest : List Entry)
    (hpre : ∀ e ∈ pre, stepAborts e = false)
    (hbad : stepAborts bad = true) :
    (runScan (pre ++ bad :: rest) 0 0 []).fatal ≠ none
    ∧ (∃ tail, (runScan (pre ++ bad :: rest) 0 0 []).dir
        = pre.map finalPair ++ tail)
    ∧ ∀ e ∈ pre, ∀ t, e.obj = .symlink t → isAbs (readTarget t) = true →
        (e.name, some (.symlink ("../.." ++ readTarget t)))
          ∈ (runScan (pre ++ bad :: rest) 0 0 []).dir := by
  have hrun := runScan_clean_append pre (bad :: rest) 0 0 [] hpre
  rcases runScan_abort_step bad rest (0 + pre.countP readsAsLink)
      (0 + pre.countP getsFixed) ([] ++ pre.map finalPair) hbad with
    ⟨er, tail, li, habort⟩
  rw [hrun, habort]
  simp only [List.nil_append]
  refine ⟨by simp, ⟨tail, by simp [List.append_assoc]⟩, ?_⟩
  intro e hmem t hobj habs
  have hfp : finalPair e = (e.name, some (.symlink ("../.." ++ readTarget t))) := by
    unfold finalPair
    rw [hobj]
    simp [habs, rewriteTarget]
  show _ ∈ pre.map finalPair ++ tail
  refine List.mem_append.2 (Or.inl ?_)
  rw [← hfp]
  exact List.mem_map_of_mem finalPair hmem

/-- Claim C10 witness: after `a -> /x` is rewritten, an unlink failure
on `b -> /y` aborts the run with `a` still rewritten. -/
theorem c10_no_rollback_witness :
    (runScan ([⟨"a", .symlink "/x", false, false, false⟩]
        ++ (⟨"b", .symlink "/y", false, true, false⟩ : Entry) :: []) 0 0 []).fatal
      ≠ none :=
  (c10_no_rollback [⟨"a", .symlink "/x", false, false, false⟩]
    ⟨"b", .symlink "/y", false, true, false⟩ [] (by decide) (by decide)).1

end Fixlinks

namespace Fixlinks

/-- Claim C3 (amended): an `EINVAL` readlink failure silently skips the
entry, changing neither counter; any other readlink failure, an unlink
failure, or a symlink-create failure immediately ends the scan before
any later entry is processed, the run terminates with the OS-error
outcome (status 71) carrying the failing operation's message — the
entry name being surfaced in the readlink-failure message, while the
unlink/symlink-create messages name only the failing operation — and no
summary line is produced. -/
theorem c3_error_policy :
    (∀ (e : Entry) rest l f acc, e.readlinkOtherErr = false → e.obj = .other →
        runScan (e :: rest) l f acc = runScan rest l f (acc ++ [origPair e]))
    ∧ (∀ (e : Entry) rest l f acc, e.readlinkOtherErr = true →
        runScan (e :: rest) l f acc
          = ⟨l, f, acc ++ (e :: rest).map origPair, some (.readlinkFailed e.name)⟩
        ∧ ∃ pe po, fatalMsg (.readlinkFailed e.name) = pe ++ e.name ++ po)
    ∧ (∀ (e : Entry) rest l f acc t, e.readlinkOtherErr = false →
        e.obj = .symlink t → isAbs (readTarget t) = true → e.unlinkErr = true →
        runScan (e :: rest) l f acc
          = ⟨l + 1, f, acc ++ (e :: rest).map origPair,
              some (.unlinkFailed e.name)⟩)
    ∧ (∀ (e : Entry) rest l f acc t, e.readlinkOtherErr = false →
        e.obj = .symlink t → isAbs (readTarget t) = true → e.unlinkErr = false →
        e.symlinkErr = true →
        runScan (e :: rest) l f acc
          = ⟨l + 1, f, acc ++ (e.name, none) :: rest.map origPair,
              some (.symlinkFailed e.name)⟩)
    ∧ (∀ entries cwd er, (runScan entries 0 0 []).fatal = some er →
        (fixlinksMain (some entries) cwd).1 = .oserr (fatalMsg er)
        ∧ exitStatus (.oserr (fatalMsg er)) = some 71) := by
  refine ⟨?_, ?_, ?_, ?_, ?_⟩
  · intro e rest l f acc h1 h2
    rcases e with ⟨n, obj, rerr, uerr, serr⟩
    cases h1
    cases h2
    rfl
  · intro e rest l f acc h1
    rcases e with ⟨n, obj, rerr, uerr, serr⟩
    cases h1
    exact ⟨rfl, "error in readlink(\x27", "\x27)", rfl⟩
  · intro e rest l f acc t h1 h2 h3 h4
    rcases e with ⟨n, obj, rerr, uerr, serr⟩
    cases h1
    cases h2
    cases h4
    simp [runScan, h3]
  · intro e rest l f acc t h1 h2 h3 h4 h5
    rcases e with ⟨n, obj, rerr, uerr, serr⟩
    cases h1
    cases h2
    cases h4
    cases h5
    simp [runScan, h3]
  · intro entries cwd er h
    exact ⟨by simp [fixlinksMain, h], rfl⟩

/-- Claim C3 witness: the policy at concrete entries — a regular file is
skipped, a failing readlink aborts with the name in the message, unlink
and symlink-create failures abort, and a fatal scan yields the OS-error
outcome. -/
theorem c3_error_policy_witness :
    runScan [(⟨"f", .other, false, false, false⟩ : Entry)] 0 0 []
      = runScan [] 0 0 ([] ++ [origPair ⟨"f", .other, false, false, false⟩])
    ∧ (runScan [(⟨"r", .symlink "/q", true, false, false⟩ : Entry)] 0 0 []
        = ⟨0, 0,
            [] ++ [(⟨"r", .symlink "/q", true, false, false⟩ : Entry)].map origPair,
            some (.readlinkFailed "r")⟩
       ∧ ∃ pe po, fatalMsg (.readlinkFailed "r") = pe ++ "r" ++ po)
    ∧ runScan [(⟨"u", .symlink "/q", false, true, false⟩ : Entry)] 0 0 []
        = ⟨0 + 1, 0,
            [] ++ [(⟨"u", .symlink "/q", false, true, false⟩ : Entry)].map origPair,
            some (.unlinkFailed "u")⟩
    ∧ runScan [(⟨"s", .symlink "/q", false, false, true⟩ : Entry)] 0 0 []
        = ⟨0 + 1, 0, [] ++ ("s", none) :: ([] : List Entry).map origPair,
            some (.symlinkFailed "s")⟩
    ∧ ((fixlinksMain (some [⟨"r", .symlink "/q", true, false, false⟩]) "/w").1
        = .oserr (fatalMsg (.readlinkFailed "r"))
       ∧ exitStatus (.oserr (fatalMsg (.readlinkFailed "r"))) = some 71) :=
  ⟨c3_error_policy.1 ⟨"f", .other, false, false, false⟩ [] 0 0 [] rfl rfl,
   c3_error_policy.2.1 ⟨"r", .symlink "/q", true, false, false⟩ [] 0 0 [] rfl,
   c3_error_policy.2.2.1 ⟨"u", .symlink "/q", false, true, false⟩ [] 0 0 []
     "/q" rfl rfl (by rfl) rfl,
   c3_error_policy.2.2.2.1 ⟨"s", .symlink "/q", false, false, true⟩ [] 0 0 []
     "/q" rfl rfl (by rfl) rfl rfl,
   c3_error_policy.2.2.2.2 [⟨"r", .symlink "/q", true, false, false⟩] "/w"
     (.readlinkFailed "r") (by rfl)⟩

end Fixlinks

namespace Cheridis

/-- Claim C8: the disassembly front end processes each argument thus: an
8-character argument, or a 10-character argument beginning with `0x`
(prefix stripped), is split into its four consecutive 2-character byte
pairs in order, each streamed as the token `0x` ++ pair ++ `" "`; an
argument of any other length, or a 10-character argument not beginning
with `0x`, contributes nothing to the stream. -/
theorem c8_argument_processing (p0 p1 p2 p3 s : List Char)
    (h0 : p0.length = 2) (h1 : p1.length = 2) (h2 : p2.length = 2)
    (h3 : p3.length = 2) :
    disTokens (p0 ++ (p1 ++ (p2 ++ p3)))
      = ("0x" ++ String.mk p0 ++ " ") ++ (("0x" ++ String.mk p1 ++ " ")
          ++ (("0x" ++ String.mk p2 ++ " ") ++ ("0x" ++ String.mk p3 ++ " ")))
    ∧ disTokens ('0' :: 'x' :: (p0 ++ (p1 ++ (p2 ++ p3))))
        = disTokens (p0 ++ (p1 ++ (p2 ++ p3)))
    ∧ (s.length ≠ 8 → s.length ≠ 10 → disTokens s = "")
    ∧ (s.length = 10 → ¬(s[0]? = some '0' ∧ s[1]? = some 'x') →
        disTokens s = "")
    ∧ cheridisInput [p0 ++ (p1 ++ (p2 ++ p3))]
        = disTokens (p0 ++ (p1 ++ (p2 ++ p3))) := by
  have hlen : (p0 ++ (p1 ++ (p2 ++ p3))).length = 8 := by
    simp [h0, h1, h2, h3]
  have e0 : ((p0 ++ (p1 ++ (p2 ++ p3))).drop 0).take 2 = p0 := by
    rw [List.drop_zero, List.take_left' h0]
  have d2 : (p0 ++ (p1 ++ (p2 ++ p3))).drop 2 = p1 ++ (p2 ++ p3) :=
    List.drop_left' h0
  have e2 : ((p0 ++ (p1 ++ (p2 ++ p3))).drop 2).take 2 = p1 := by
    rw [d2, List.take_left' h1]
  have d4 : (p0 ++ (p1 ++ (p2 ++ p3))).drop 4 = p2 ++ p3 := by
    rw [show (4 : Nat) = 2 + 2 from rfl, ← List.drop_drop, d2,
      List.drop_left' h1]
  have e4 : ((p0 ++ (p1 ++ (p2 ++ p3))).drop 4).take 2 = p2 := by
    rw [d4, List.take_left' h2]
  have e6 : ((p0 ++ (p1 ++ (p2 ++ p3))).drop 6).take 2 = p3 := by
    rw [show (6 : Nat) = 4 + 2 from rfl, ← List.drop_drop, d4,
      List.drop_left' h2, List.take_of_length_le (le_of_eq h3)]
  have hemit : emitPairs (p0 ++ (p1 ++ (p2 ++ p3)))
      = ("0x" ++ String.mk p0 ++ " ") ++ (("0x" ++ String.mk p1 ++ " ")
          ++ (("0x" ++ String.mk p2 ++ " ") ++ ("0x" ++ String.mk p3 ++ " "))) := by
    unfold emitPairs fmtTok
    rw [e0, e2, e4, e6]
  have hdis : disTokens (p0 ++ (p1 ++ (p2 ++ p3)))
      = emitPairs (p0 ++ (p1 ++ (p2 ++ p3))) := by
    simp [disTokens, hlen]
  refine ⟨by rw [hdis, hemit], ?_, ?_, ?_, ?_⟩
  · have hlen10 : ('0' :: 'x' :: (p0 ++ (p1 ++ (p2 ++ p3)))).length = 10 := by
      simp [hlen]
    rw [hdis]
    simp [disTokens, hlen10, hlen]
  · intro hn8 hn10
    simp [disTokens, hn8, hn10]
  · intro h10 hno
    have : ¬(s[0]? = some '0') ∨ ¬(s[1]? = some 'x') := by
      by_cases ha : s[0]? = some '0'
      · exact Or.inr (fun hb => hno ⟨ha, hb⟩)
      · exact Or.inl ha
    rcases this with ha | hb
    · have hc : (!(s[0]? == some '0') || !(s[1]? == some 'x')) = true := by
        have hf : (s[0]? == some '0') = false := beq_eq_false_iff_ne.2 ha
        simp [hf]
      simp only [disTokens, h10]
      rw [if_pos (by rfl), if_pos hc]
    · have hc : (!(s[0]? == some '0') || !(s[1]? == some 'x')) = true := by
        have hf : (s[1]? == some 'x') = false := beq_eq_false_iff_ne.2 hb
        simp [hf]
      simp only [disTokens, h10]
      rw [if_pos (by rfl), if_pos hc]
  · simp [cheridisInput, String.join]

/-- Claim C8 witness: the instruction word `01234567`, bare and with the
`0x` prefix, produces the four byte-pair tokens; a one-character
argument and a 10-character argument without the prefix produce
nothing. -/
theorem c8_argument_processing_witness :
    disTokens (['0', '1'] ++ (['2', '3'] ++ (['4', '5'] ++ ['6', '7'])))
      = ("0x" ++ String.mk ['0', '1'] ++ " ")
          ++ (("0x" ++ String.mk ['2', '3'] ++ " ")
          ++ (("0x" ++ String.mk ['4', '5'] ++ " ")
          ++ ("0x" ++ String.mk ['6', '7'] ++ " "))) :=
  (c8_argument_processing ['0', '1'] ['2', '3'] ['4', '5'] ['6', '7'] ['z']
    rfl rfl rfl rfl).1

end Cheridis
